import Mathlib

/-!
Verification of the terrarium-webchat core against its specification.

The definitions below are a shallow embedding of the Python sources
(packages/terrarium-client/src): the Conversation store (context.py),
the resilient agent client with retry and circuit breaker and the SSE
streaming decode (agent.py), and the dispatch queue plus the tool-call
loop of the worker (worker.py).  Machine details that the claims do not
touch (JSON wire encoding, real clocks, the HTTP library) are abstracted
as explicit parameters; times and latencies are rationals; Python sets
are modelled as duplicate-free lists.
-/

namespace Terrarium

/-! ## Conversation store (context.py) -/

/-- One turn of a conversation (context.py, ConversationTurn).  The
created_at timestamp is omitted: no claim mentions it. -/
structure ConversationTurn where
  message_id : Option String
  role : String
  content : String
deriving DecidableEq, Repr

/-- Conversation state (context.py, Conversation).  The Python set
_seen_message_ids is modelled as a duplicate-free list; last_activity is
omitted (no claim mentions it). -/
structure Conversation where
  chat_id : String
  turns : List ConversationTurn
  seen_message_ids : List String
deriving DecidableEq, Repr

/-- Insertion into a Python set modelled on lists. -/
def setInsert (x : String) (s : List String) : List String :=
  if x ∈ s then s else x :: s

/-- context.py, Conversation.add_turn.  The Python guard `if message_id:`
is truthiness: the id is recorded in the seen set only when it is
neither None nor the empty string; the turn itself is appended
unconditionally. -/
def Conversation.add_turn (c : Conversation) (role content : String)
    (message_id : Option String := none) : Conversation :=
  { c with
    seen_message_ids :=
      match message_id with
      | some mid => if mid = "" then c.seen_message_ids else setInsert mid c.seen_message_ids
      | none => c.seen_message_ids
    turns := c.turns ++ [{ message_id := message_id, role := role, content := content }] }

/-- context.py, Conversation.ingest: returns False and leaves the state
unchanged when the id was already seen, otherwise adds the turn. -/
def Conversation.ingest (c : Conversation) (role content : String)
    (message_id : String) : Bool × Conversation :=
  if message_id ∈ c.seen_message_ids then (false, c)
  else (true, c.add_turn role content (some message_id))

/-- The Python slice xs[-n:].  For n = 0 the slice index -0 equals 0, so
the slice is the whole list; for n >= 1 it is the last min(n, length)
elements. -/
def pySliceLast (xs : List α) (n : Nat) : List α :=
  if n = 0 then xs else xs.drop (xs.length - n)

/-- context.py, Conversation.prune: drops all but the last max_turns
turns, but only when the list is strictly longer than max_turns. -/
def Conversation.prune (c : Conversation) (max_turns : Nat := 10) : Conversation :=
  if c.turns.length > max_turns then { c with turns := pySliceLast c.turns max_turns } else c

/-- A prompt message as built by to_prompt_messages. -/
structure PromptMessage where
  role : String
  content : String
deriving DecidableEq, Repr

/-- context.py, Conversation.to_prompt_messages.  Mutates the
conversation (prunes it), then returns the system prompt followed by the
sliced history; the mutated conversation is returned as second
component. -/
def Conversation.to_prompt_messages (c : Conversation) (system_prompt : String)
    (max_turns : Nat := 12) : List PromptMessage × Conversation :=
  let c := c.prune max_turns
  let history := pySliceLast c.turns max_turns
  ({ role := "system", content := system_prompt } ::
      history.map (fun t => { role := t.role, content := t.content }), c)

/-! ## Streaming decode and tool-call delta merge (agent.py, _stream) -/

/-- One tool-call delta taken from an SSE frame.  It models a JSON dict
that carries an "id" key; fn_name and arguments model the optional
"name" and "arguments" keys of its "function" sub-dict (none means the
key is absent). -/
structure ToolCallDelta where
  id : String
  fn_name : Option String
  arguments : Option String
deriving DecidableEq, Repr

/-- An entry of the tool_calls accumulator of _stream (the PendingToolCall
of the specification): same shape as a delta, with arguments as the
accumulated buffer. -/
structure PendingToolCall where
  id : String
  fn_name : Option String
  arguments : Option String
deriving DecidableEq, Repr

/-- agent.py lines 207-210: when a delta carries an "arguments" fragment,
concatenate it onto the existing buffer (an absent buffer reads as ""). -/
def applyArgFragment (c : PendingToolCall) (d : ToolCallDelta) : PendingToolCall :=
  match d.arguments with
  | some frag => { c with arguments := some (c.arguments.getD "" ++ frag) }
  | none => c

/-- The mutation of the first accumulator entry whose id equals the delta
id (agent.py line 205: next over the list finds the first match). -/
def updateFirstMatch (d : ToolCallDelta) : List PendingToolCall → List PendingToolCall
  | [] => []
  | c :: rest =>
    if c.id = d.id then applyArgFragment c d :: rest
    else c :: updateFirstMatch d rest

/-- agent.py lines 204-212: merge one tool-call delta into the
accumulator; a known id updates the first matching entry, a new id
appends the delta as a fresh entry. -/
def mergeDelta (acc : List PendingToolCall) (d : ToolCallDelta) : List PendingToolCall :=
  if acc.any (fun c => c.id == d.id) then updateFirstMatch d acc
  else acc ++ [{ id := d.id, fn_name := d.fn_name, arguments := d.arguments }]

/-- Folding a whole sequence of deltas into an empty accumulator. -/
def mergeToolCallDeltas (deltas : List ToolCallDelta) : List PendingToolCall :=
  deltas.foldl mergeDelta []

/-- One SSE frame after the line-level parsing of agent.py lines 185-198:
skipped covers blank lines, lines without the data prefix, malformed
JSON and frames without choices; done is the [DONE] marker; delta
carries the content delta and the tool-call deltas of the frame. -/
inductive SSEFrame where
  | skipped
  | done
  | delta (content : Option String) (tool_calls : List ToolCallDelta)
deriving DecidableEq, Repr

/-- The accumulation state of stream_once. -/
structure StreamAccum where
  content_parts : List String
  tool_calls : List PendingToolCall
deriving DecidableEq, Repr

/-- agent.py lines 199-212: process one delta frame.  The guard
`if delta.get("content"):` is truthiness, so an empty content fragment
is not appended; the tool-call deltas are merged in order. -/
def processFrame (acc : StreamAccum) (content : Option String)
    (tcs : List ToolCallDelta) : StreamAccum :=
  { content_parts :=
      match content with
      | some s => if s = "" then acc.content_parts else acc.content_parts ++ [s]
      | none => acc.content_parts
    tool_calls := if tcs.isEmpty then acc.tool_calls else tcs.foldl mergeDelta acc.tool_calls }

/-- agent.py lines 185-212: the frame loop; a done frame breaks out even
when further frames follow. -/
def processFrames : StreamAccum → List SSEFrame → StreamAccum
  | acc, [] => acc
  | acc, .done :: _ => acc
  | acc, .skipped :: rest => processFrames acc rest
  | acc, .delta content tcs :: rest => processFrames (processFrame acc content tcs) rest

/-- The assistant message assembled at stream end (agent.py lines
214-218).  An empty tool_calls list models the absent "tool_calls"
key. -/
structure AssistantMessage where
  role : String
  content : String
  tool_calls : List PendingToolCall
deriving DecidableEq, Repr

/-- agent.py lines 214-218: join the content parts and attach the
accumulated tool calls. -/
def assembleStreamMessage (frames : List SSEFrame) : AssistantMessage :=
  let acc := processFrames ⟨[], []⟩ frames
  { role := "assistant", content := String.join acc.content_parts, tool_calls := acc.tool_calls }

/-! ## Retry loop and circuit breaker (agent.py, _execute_with_retries) -/

/-- The client configuration fields the claims touch (agent.py __init__).
max_retries is the raw constructor argument; the constructor clamps it
with max(1, max_retries), modelled in execute_with_retries. -/
structure ClientConfig where
  max_retries : Nat
  circuit_breaker_failures : Nat
  circuit_breaker_cooldown : ℚ
deriving DecidableEq, Repr

/-- The circuit state (spec CircuitState): _consecutive_failures and
_circuit_open_until of agent.py. -/
structure CircuitState where
  consecutive_failures : Nat
  circuit_open_until : Option ℚ
deriving DecidableEq, Repr

/-- agent.py, _record_failure: increment the failure counter and, at or
beyond the threshold, open the circuit until now + cooldown.  The
Python time() call inside _record_failure is modelled by the explicit
now argument. -/
def record_failure (cfg : ClientConfig) (now : ℚ) (s : CircuitState) : CircuitState :=
  let n := s.consecutive_failures + 1
  { consecutive_failures := n
    circuit_open_until :=
      if n ≥ cfg.circuit_breaker_failures then some (now + cfg.circuit_breaker_cooldown)
      else s.circuit_open_until }

/-- What one invocation of the wrapped operation does, as observed by
_execute_with_retries: a result, or one of the caught exception kinds
(AgentClientError with its category, HTTPStatusError with its status,
TimeoutException, RequestError). -/
inductive AttemptOutcome (α : Type) where
  | ok (value : α) (latency_ms : ℚ)
  | agentError (category : String)
  | httpStatusError (status : Nat)
  | timeoutExc
  | requestExc
deriving DecidableEq, Repr

/-- The outcome of _execute_with_retries: a returned value or a raised
AgentClientError category, together with the number of operation
invocations performed and the backoff sleeps issued, in order. -/
inductive ExecResult (α : Type) where
  | success (value : α) (latency_ms : ℚ) (attempts : Nat) (sleeps : List ℚ)
  | failure (category : String) (attempts : Nat) (sleeps : List ℚ)
deriving DecidableEq, Repr

/-- The sleeps recorded in an execution outcome. -/
def ExecResult.sleepsOf : ExecResult α → List ℚ
  | .success _ _ _ sl => sl
  | .failure _ _ sl => sl

/-- The retry categories of agent.py line 238. -/
def RETRYABLE : List String := ["timeout", "network", "server_error"]

/-- agent.py lines 253-260: map an HTTP status to an error category. -/
def httpCategory (status : Nat) : String :=
  if status = 401 then "auth"
  else if status ≥ 500 then "server_error"
  else "http_error"

/-- agent.py lines 243, 267, 274: the backoff delay before a retry.  The
Python expression min(2 ** attempt, 8) is integer arithmetic, cast to a
rational before the jitter (random.random(), a value in [0, 1)) is
added. -/
def backoffDelay (attempt : Nat) (jitter : ℚ) : ℚ :=
  ((min (2 ^ attempt) 8 : ℕ) : ℚ) + jitter

/-- The effect of one loop iteration of _execute_with_retries: either
the loop finishes (return or raise) with a final circuit state, or it
records a failure, sleeps and retries. -/
inductive StepResult (α : Type) where
  | finish (res : ExecResult α) (s : CircuitState)
  | sleepRetry (delay : ℚ) (s : CircuitState)
deriving DecidableEq, Repr

/-- The circuit state carried by a step result. -/
def StepResult.stateOf : StepResult α → CircuitState
  | .finish _ s => s
  | .sleepRetry _ s => s

/-- One iteration of the retry loop (agent.py lines 231-276), for the
outcome of the current attempt.  isLast states attempt =
max_retries - 1.  On success the circuit resets; every failure path
records the failure; only retryable AgentClientError categories,
timeouts and request errors retry, and only when the attempt is not the
last. -/
def attemptStep (cfg : ClientConfig) (now : ℚ) (o : AttemptOutcome α) (jitter : ℚ)
    (attempt : Nat) (isLast : Bool) (s : CircuitState) (sleeps : List ℚ) : StepResult α :=
  match o with
  | .ok v lat => .finish (.success v lat (attempt + 1) sleeps) ⟨0, none⟩
  | .agentError cat =>
    if cat ∉ RETRYABLE ∨ isLast = true then
      .finish (.failure cat (attempt + 1) sleeps) (record_failure cfg now s)
    else
      .sleepRetry (backoffDelay attempt jitter) (record_failure cfg now s)
  | .httpStatusError status =>
    .finish (.failure (httpCategory status) (attempt + 1) sleeps) (record_failure cfg now s)
  | .timeoutExc =>
    if isLast = true then
      .finish (.failure "timeout" (attempt + 1) sleeps) (record_failure cfg now s)
    else
      .sleepRetry (backoffDelay attempt jitter) (record_failure cfg now s)
  | .requestExc =>
    if isLast = true then
      .finish (.failure "network" (attempt + 1) sleeps) (record_failure cfg now s)
    else
      .sleepRetry (backoffDelay attempt jitter) (record_failure cfg now s)

/-- The for loop of _execute_with_retries, by recursion on the number of
attempts still allowed.  The fuel-exhausted base case is the
fall-through raise of agent.py line 278 (category unknown); it is
unreachable when the loop starts with at least one attempt, because the
last attempt never sleeps. -/
def retryLoop (cfg : ClientConfig) (outcomes : Nat → AttemptOutcome α) (jitter : Nat → ℚ)
    (now : ℚ) : Nat → Nat → CircuitState → List ℚ → ExecResult α × CircuitState
  | attempt, 0, s, sleeps => (.failure "unknown" attempt sleeps, s)
  | attempt, remaining + 1, s, sleeps =>
    match attemptStep cfg now (outcomes attempt) (jitter attempt) attempt (remaining == 0) s sleeps with
    | .finish res s1 => (res, s1)
    | .sleepRetry d s1 => retryLoop cfg outcomes jitter now (attempt + 1) remaining s1 (sleeps ++ [d])

/-- agent.py lines 228-229: the circuit guard.  Python truthiness makes
an open_until equal to 0.0 behave as no circuit; real clock values are
positive, so the guard is the usual one whenever now is nonnegative. -/
def circuitOpenAt (s : CircuitState) (now : ℚ) : Bool :=
  match s.circuit_open_until with
  | none => false
  | some t => decide (t ≠ 0 ∧ now < t)

/-- agent.py, _execute_with_retries: fail fast with circuit_open while
the circuit is open, otherwise run up to max(1, max_retries) attempts.
The time() call at entry is the now argument, and time is modelled as
frozen for the duration of one call. -/
def execute_with_retries (cfg : ClientConfig) (outcomes : Nat → AttemptOutcome α)
    (jitter : Nat → ℚ) (now : ℚ) (s : CircuitState) : ExecResult α × CircuitState :=
  if circuitOpenAt s now then (.failure "circuit_open" 0 [], s)
  else retryLoop cfg outcomes jitter now 0 (max 1 cfg.max_retries) s []

/-! ## Request paths (agent.py, chat / _post / _stream) -/

/-- A non-streaming HTTP exchange as the claims see it: the status code
and the content field of the parsed JSON body (an absent or empty
content both read as ""). -/
structure HttpResponse where
  status : Nat
  body_content : String
deriving DecidableEq, Repr

/-- The parsed JSON body that _post returns, reduced to the field the
claims inspect. -/
structure ChatCompletionBody where
  content : String
deriving DecidableEq, Repr

/-- The send closure of _post (agent.py lines 157-162):
raise_for_status raises HTTPStatusError for any status of 400 and
above, otherwise the parsed JSON body is returned; no content
validation happens here. -/
def sendOutcome (resp : HttpResponse) (lat : ℚ) : AttemptOutcome ChatCompletionBody :=
  if resp.status ≥ 400 then .httpStatusError resp.status
  else .ok ⟨resp.body_content⟩ lat

/-- agent.py, _post: the send closure run through
_execute_with_retries. -/
def post (cfg : ClientConfig) (responses : Nat → HttpResponse) (lat : Nat → ℚ)
    (jitter : Nat → ℚ) (now : ℚ) (s : CircuitState) :
    ExecResult ChatCompletionBody × CircuitState :=
  execute_with_retries cfg (fun a => sendOutcome (responses a) (lat a)) jitter now s

/-- agent.py, _post_for_content: digs the content out of the _post
result, strips it, and raises AgentClientError (default category
unknown) when it is empty.  This helper, not chat, is where non-empty
validation lives. -/
def post_for_content (cfg : ClientConfig) (responses : Nat → HttpResponse) (lat : Nat → ℚ)
    (jitter : Nat → ℚ) (now : ℚ) (s : CircuitState) : ExecResult String × CircuitState :=
  match post cfg responses lat jitter now s with
  | (.success body l att sl, s1) =>
    let message := body.content.trim
    if message = "" then (.failure "unknown" att sl, s1)
    else (.success message l att sl, s1)
  | (.failure cat att sl, s1) => (.failure cat att sl, s1)

/-- A streaming HTTP exchange: the status code and the SSE frames of the
body. -/
structure StreamHttpResponse where
  status : Nat
  frames : List SSEFrame
deriving DecidableEq, Repr

/-- The stream_once closure of _stream (agent.py lines 171-218): a
failing raise_for_status is caught inside stream_once and re-raised as
AgentClientError with category http_error regardless of the status;
otherwise the frames are decoded into the assembled assistant
message. -/
def stream_once_outcome (resp : StreamHttpResponse) (lat : ℚ) :
    AttemptOutcome AssistantMessage :=
  if resp.status ≥ 400 then .agentError "http_error"
  else .ok (assembleStreamMessage resp.frames) lat

/-- agent.py, _stream: stream_once run through _execute_with_retries. -/
def streamChat (cfg : ClientConfig) (responses : Nat → StreamHttpResponse) (lat : Nat → ℚ)
    (jitter : Nat → ℚ) (now : ℚ) (s : CircuitState) :
    ExecResult AssistantMessage × CircuitState :=
  execute_with_retries cfg (fun a => stream_once_outcome (responses a) (lat a)) jitter now s

/-- The result of chat: the non-streaming branch returns the parsed
body, the streaming branch the assembled assistant message. -/
inductive ChatResult where
  | nonstream (r : ExecResult ChatCompletionBody)
  | streamed (r : ExecResult AssistantMessage)
deriving DecidableEq, Repr

/-- agent.py, chat (lines 94-96): dispatch on the stream flag to _stream
or _post.  Payload construction carries no logic the claims touch. -/
def chat (cfg : ClientConfig) (stream : Bool) (responses : Nat → HttpResponse)
    (streamResponses : Nat → StreamHttpResponse) (lat : Nat → ℚ) (jitter : Nat → ℚ)
    (now : ℚ) (s : CircuitState) : ChatResult × CircuitState :=
  if stream then
    let r := streamChat cfg streamResponses lat jitter now s
    (.streamed r.1, r.2)
  else
    let r := post cfg responses lat jitter now s
    (.nonstream r.1, r.2)

/-! ## Dispatch queue (worker.py, _enqueue_chat / _chat_queue_worker) -/

/-- The dispatch state of the worker: the pending id set (queued or in
flight) and the FIFO chat queue. -/
structure DispatchState where
  pending_chat_ids : List String
  chat_queue : List String
deriving DecidableEq, Repr

/-- worker.py, _enqueue_chat: an id already pending is not re-queued;
otherwise it is added to the pending set and appended to the queue. -/
def enqueue_chat (s : DispatchState) (chat_id : String) : DispatchState :=
  if chat_id ∈ s.pending_chat_ids then s
  else { pending_chat_ids := chat_id :: s.pending_chat_ids
         chat_queue := s.chat_queue ++ [chat_id] }

/-- worker.py line 186: the queue worker takes the front of the queue;
the taken id stays in the pending set while the chat is processed. -/
def queue_get (s : DispatchState) : Option (String × DispatchState) :=
  match s.chat_queue with
  | [] => none
  | chat_id :: rest => some (chat_id, { s with chat_queue := rest })

/-- worker.py line 192: after processing (success or failure alike) the
id is discarded from the pending set. -/
def finish_chat (s : DispatchState) (chat_id : String) : DispatchState :=
  { s with pending_chat_ids := s.pending_chat_ids.erase chat_id }

/-! ## Tool-call loop (worker.py, _run_tool_loop) -/

/-- The outcome of _run_tool_loop: a final answer with the latency of
the last chat call and the count of iterations used, or a raised
AgentClientError with its category and message. -/
inductive ToolLoopResult where
  | answer (content : String) (latency_ms : ℚ) (iterations : Nat)
  | agentError (category : String) (message : String)
deriving DecidableEq, Repr

/-- The iteration body of _run_tool_loop (worker.py lines 272-332), by
recursion on the remaining iteration budget; i is the current iteration
index and responses abstracts the streamed agent.chat results.  A
response with tool calls loops (the tool execution and message
appending do not affect the returned result); a tool-free response with
empty content raises (category unknown); otherwise its content is the
final answer.  Falling off the loop raises the exhaustion error, again
with the default category unknown. -/
def toolLoopGo (responses : Nat → AssistantMessage) (lat : Nat → ℚ) :
    Nat → Nat → ToolLoopResult
  | _, 0 => .agentError "unknown" "Reached max tool iterations without a response"
  | i, fuel + 1 =>
    let resp := responses i
    if resp.tool_calls.isEmpty then
      if resp.content = "" then
        .agentError "unknown" "Terrarium agent returned an empty response"
      else .answer resp.content (lat i) (i + 1)
    else toolLoopGo responses lat (i + 1) fuel

/-- worker.py, _run_tool_loop: run the iteration body from iteration 0
with the configured budget. -/
def run_tool_loop (max_tool_iterations : Nat) (responses : Nat → AssistantMessage)
    (lat : Nat → ℚ) : ToolLoopResult :=
  toolLoopGo responses lat 0 max_tool_iterations

/-! ## Helper lemmas for the conversation store -/

theorem pySliceLast_of_pos (xs : List α) (n : Nat) (h : n ≠ 0) :
    pySliceLast xs n = xs.drop (xs.length - n) := by
  simp [pySliceLast, h]

theorem prune_turns_of_pos (c : Conversation) (N : Nat) (h : 1 ≤ N) :
    (c.prune N).turns = c.turns.drop (c.turns.length - N) := by
  unfold Conversation.prune
  by_cases hlen : c.turns.length > N
  · simp only [hlen, if_pos]
    exact pySliceLast_of_pos _ _ (by omega)
  · have h0 : c.turns.length - N = 0 := by omega
    simp [hlen, h0]

theorem prune_length_le (c : Conversation) (N : Nat) (h : 1 ≤ N) :
    (c.prune N).turns.length ≤ N := by
  rw [prune_turns_of_pos c N h, List.length_drop]
  omega

theorem prune_chat_id (c : Conversation) (N : Nat) : (c.prune N).chat_id = c.chat_id := by
  unfold Conversation.prune
  split <;> rfl

theorem prune_seen (c : Conversation) (N : Nat) :
    (c.prune N).seen_message_ids = c.seen_message_ids := by
  unfold Conversation.prune
  split <;> rfl

/-- C8, claim as stated, fails at N = 0: the Python slice turns[-0:] is
the whole list, so prune(0) on a one-turn conversation keeps the turn
and the length bound fails. -/
def cexOneTurnConv : Conversation :=
  { chat_id := "chat", turns := [{ message_id := none, role := "user", content := "hi" }],
    seen_message_ids := [] }

/-- C8 counterexample: prune with max_turns = 0 does not bound the turn
list by 0; the single turn survives. -/
theorem C8_counterexample :
    (cexOneTurnConv.prune 0).turns.length = 1 ∧ ¬ ((cexOneTurnConv.prune 0).turns.length ≤ 0) := by
  decide

/-- C8 (amended to N >= 1): after prune(max_turns=N) the turn list has
length at most N and the retained turns are exactly the most recent N
turns of the previous list in their original order (as the drop of all
earlier turns). -/
theorem C8_prune_keeps_most_recent (c : Conversation) (N : Nat) (h : 1 ≤ N) :
    (c.prune N).turns.length ≤ N ∧
    (c.prune N).turns = c.turns.drop (c.turns.length - N) :=
  ⟨prune_length_le c N h, prune_turns_of_pos c N h⟩

/-- Sample three-turn conversation used by witnesses. -/
def sampleConv : Conversation :=
  { chat_id := "chat"
    turns := [{ message_id := some "m1", role := "user", content := "a" },
              { message_id := none, role := "assistant", content := "b" },
              { message_id := some "m3", role := "user", content := "c" }]
    seen_message_ids := ["m1", "m3"] }

/-- C8 witness: the amended statement evaluated on a concrete three-turn
conversation pruned to two turns. -/
theorem C8_witness :
    (sampleConv.prune 2).turns.length ≤ 2 ∧
    (sampleConv.prune 2).turns = sampleConv.turns.drop (sampleConv.turns.length - 2) :=
  C8_prune_keeps_most_recent sampleConv 2 (by norm_num)

/-- C10 counterexample: with max_turns = 0, to_prompt_messages neither
prunes the conversation to 0 turns nor bounds the returned list by
max_turns + 1 (the Python slice turns[-0:] keeps everything). -/
theorem C10_counterexample :
    ¬ (((cexOneTurnConv.to_prompt_messages "sys" 0).1.length ≤ 0 + 1) ∧
       ((cexOneTurnConv.to_prompt_messages "sys" 0).2.turns.length ≤ 0)) := by
  decide

/-- C10 (amended to max_turns >= 1): to_prompt_messages prunes the
conversation as a side effect, and returns the system-prompt message
followed by role and content of the retained turns in order, so the
returned list has length at most max_turns + 1. -/
theorem C10_to_prompt_messages_prunes (c : Conversation) (sp : String) (N : Nat)
    (h : 1 ≤ N) :
    (c.to_prompt_messages sp N).2 = c.prune N ∧
    (c.to_prompt_messages sp N).2.turns.length ≤ N ∧
    (c.to_prompt_messages sp N).1 =
      { role := "system", content := sp } ::
        (c.prune N).turns.map (fun t => { role := t.role, content := t.content }) ∧
    (c.to_prompt_messages sp N).1.length ≤ N + 1 := by
  have hlen := prune_length_le c N h
  have hist : pySliceLast (c.prune N).turns N = (c.prune N).turns := by
    rw [pySliceLast_of_pos _ _ (by omega)]
    have h0 : (c.prune N).turns.length - N = 0 := by omega
    simp [h0]
  refine ⟨rfl, hlen, ?_, ?_⟩
  · unfold Conversation.to_prompt_messages
    simp [hist]
  · unfold Conversation.to_prompt_messages
    simp only [hist, List.length_cons, List.length_map]
    omega

/-- C10 witness: the amended statement evaluated on the sample
conversation with max_turns = 2. -/
theorem C10_witness :
    (sampleConv.to_prompt_messages "sys" 2).2 = sampleConv.prune 2 ∧
    (sampleConv.to_prompt_messages "sys" 2).2.turns.length ≤ 2 ∧
    (sampleConv.to_prompt_messages "sys" 2).1 =
      { role := "system", content := "sys" } ::
        (sampleConv.prune 2).turns.map (fun t => { role := t.role, content := t.content }) ∧
    (sampleConv.to_prompt_messages "sys" 2).1.length ≤ 2 + 1 :=
  C10_to_prompt_messages_prunes sampleConv "sys" 2 (by norm_num)

/-! ## C7: ingest dedup and the seen-id invariant -/

/-- The seen-id invariant, restricted to non-empty ids: every non-empty
message id present among the turns is in the seen set.  The restriction
is forced by the truthiness guard of add_turn, which never records the
empty string. -/
def seenSuperset (c : Conversation) : Prop :=
  ∀ t ∈ c.turns, ∀ mid, t.message_id = some mid → mid ≠ "" → mid ∈ c.seen_message_ids

theorem mem_setInsert_of_mem {x y : String} {s : List String} (h : x ∈ s) :
    x ∈ setInsert y s := by
  unfold setInsert
  split
  · exact h
  · exact List.mem_cons_of_mem _ h

theorem mem_setInsert_self (x : String) (s : List String) : x ∈ setInsert x s := by
  unfold setInsert
  split
  · assumption
  · exact List.mem_cons_self _ _

/-- Fresh empty conversation used for the C7 counterexample. -/
def emptyConv : Conversation := { chat_id := "chat", turns := [], seen_message_ids := [] }

/-- C7 counterexample: ingesting the empty-string message id twice adds
two turns (the truthiness guard of add_turn never records "" as seen,
so the second call is not a no-op), and the resulting conversation has
a turn whose message id is present but not in the seen set. -/
theorem C7_counterexample :
    ((emptyConv.ingest "user" "hi" "").2.ingest "user" "hi" "").2.turns.length = 2 ∧
    (∃ t ∈ ((emptyConv.ingest "user" "hi" "").2.ingest "user" "hi" "").2.turns,
      t.message_id = some "" ∧
        "" ∉ ((emptyConv.ingest "user" "hi" "").2.ingest "user" "hi" "").2.seen_message_ids) := by
  decide

theorem mem_of_mem_pySliceLast {xs : List α} {n : Nat} {a : α} (h : a ∈ pySliceLast xs n) :
    a ∈ xs := by
  unfold pySliceLast at h
  split at h
  · exact h
  · exact List.mem_of_mem_drop h

theorem add_turn_seenSuperset (c : Conversation) (role content : String)
    (omid : Option String) (hs : seenSuperset c) :
    seenSuperset (c.add_turn role content omid) := by
  intro t ht mid2 hmid2 hne2
  simp only [Conversation.add_turn, List.mem_append, List.mem_singleton] at ht
  rcases ht with ht | ht
  · have hmem := hs t ht mid2 hmid2 hne2
    cases omid with
    | none => simpa [Conversation.add_turn] using hmem
    | some m =>
      simp only [Conversation.add_turn]
      by_cases hm : m = ""
      · simpa [hm] using hmem
      · simp only [hm, ite_false]
        exact mem_setInsert_of_mem hmem
  · subst ht
    simp only at hmid2
    subst hmid2
    simp only [Conversation.add_turn]
    simp [hne2, mem_setInsert_self]

theorem ingest_seenSuperset (c : Conversation) (role content mid : String)
    (hs : seenSuperset c) : seenSuperset (c.ingest role content mid).2 := by
  unfold Conversation.ingest
  split
  · exact hs
  · exact add_turn_seenSuperset c role content (some mid) hs

theorem prune_seenSuperset (c : Conversation) (N : Nat) (hs : seenSuperset c) :
    seenSuperset (c.prune N) := by
  intro t ht mid2 hmid2 hne2
  rw [prune_seen]
  unfold Conversation.prune at ht
  split at ht
  · exact hs t (mem_of_mem_pySliceLast ht) mid2 hmid2 hne2
  · exact hs t ht mid2 hmid2 hne2

/-- C7 (amended to non-empty message ids): re-ingesting a seen id is a
no-op returning False; two ingest calls with the same non-empty unseen
id add exactly one turn; and the seen-superset invariant over non-empty
message ids is preserved by add_turn, ingest and prune. -/
theorem C7_ingest_dedup_and_invariant (c : Conversation) (role content role2 content2 : String)
    (mid : String) :
    (mid ∈ c.seen_message_ids → c.ingest role content mid = (false, c)) ∧
    (mid ≠ "" → mid ∉ c.seen_message_ids →
      ((c.ingest role content mid).2.ingest role2 content2 mid).2.turns.length =
        c.turns.length + 1) ∧
    (seenSuperset c → ∀ omid, seenSuperset (c.add_turn role content omid)) ∧
    (seenSuperset c → seenSuperset (c.ingest role content mid).2) ∧
    (seenSuperset c → ∀ N, seenSuperset (c.prune N)) := by
  refine ⟨?_, ?_, ?_, ?_, ?_⟩
  · intro h
    simp [Conversation.ingest, h]
  · intro hne h
    have h1 : (c.ingest role content mid).2 = c.add_turn role content (some mid) := by
      simp [Conversation.ingest, h]
    rw [h1]
    simp [Conversation.ingest, Conversation.add_turn, hne,
      mem_setInsert_self mid c.seen_message_ids]
  · intro hs omid
    exact add_turn_seenSuperset c role content omid hs
  · intro hs
    exact ingest_seenSuperset c role content mid hs
  · intro hs N
    exact prune_seenSuperset c N hs

/-- C7 witness: the amended statement evaluated on the sample
conversation with the fresh id m9. -/
theorem C7_witness :
    ((sampleConv.ingest "user" "x" "m9").2.ingest "user" "y" "m9").2.turns.length =
      sampleConv.turns.length + 1 ∧
    sampleConv.ingest "user" "x" "m1" = (false, sampleConv) := by
  refine ⟨?_, ?_⟩
  · exact (C7_ingest_dedup_and_invariant sampleConv "user" "x" "user" "y" "m9").2.1
      (by decide) (by decide)
  · exact (C7_ingest_dedup_and_invariant sampleConv "user" "x" "user" "y" "m1").1 (by decide)

/-! ## C9: dispatch queue dedup -/

/-- C9: enqueueing an id that is already queued or in flight is a no-op
(exactly one queued entry results from two enqueues), dequeueing keeps
the id in the pending set (so it stays non-enqueueable while in
flight), and only finishing its processing removes it from the pending
set and makes it enqueueable again.  The pending set also stays
duplicate-free. -/
theorem C9_enqueue_dedup (s : DispatchState) (chat_id : String) :
    (chat_id ∈ s.pending_chat_ids → enqueue_chat s chat_id = s) ∧
    (chat_id ∉ s.pending_chat_ids →
      enqueue_chat (enqueue_chat s chat_id) chat_id = enqueue_chat s chat_id ∧
      (enqueue_chat s chat_id).chat_queue.count chat_id = s.chat_queue.count chat_id + 1) ∧
    (∀ id2 s2, queue_get s = some (id2, s2) → s2.pending_chat_ids = s.pending_chat_ids) ∧
    (s.pending_chat_ids.Nodup →
      chat_id ∉ (finish_chat s chat_id).pending_chat_ids ∧
      (enqueue_chat (finish_chat s chat_id) chat_id).chat_queue =
        (finish_chat s chat_id).chat_queue ++ [chat_id] ∧
      (enqueue_chat s chat_id).pending_chat_ids.Nodup ∧
      (finish_chat s chat_id).pending_chat_ids.Nodup) := by
  refine ⟨?_, ?_, ?_, ?_⟩
  · intro h
    simp [enqueue_chat, h]
  · intro h
    constructor
    · have hmem : chat_id ∈ (enqueue_chat s chat_id).pending_chat_ids := by
        simp [enqueue_chat, h]
      simp [enqueue_chat, h, hmem]
    · simp [enqueue_chat, h, List.count_append]
  · intro id2 s2 hq
    unfold queue_get at hq
    cases hcq : s.chat_queue with
    | nil => rw [hcq] at hq; exact absurd hq (by simp)
    | cons a rest =>
      rw [hcq] at hq
      simp only [Option.some.injEq, Prod.mk.injEq] at hq
      rw [← hq.2]
  · intro hnd
    have hout : chat_id ∉ (finish_chat s chat_id).pending_chat_ids := by
      intro hmem
      unfold finish_chat at hmem
      simp only at hmem
      exact ((List.Nodup.mem_erase_iff hnd).1 hmem).1 rfl
    refine ⟨hout, ?_, ?_, ?_⟩
    · simp [enqueue_chat, hout]
    · unfold enqueue_chat
      split
      · exact hnd
      · exact List.Nodup.cons (by assumption) hnd
    · exact List.Nodup.erase chat_id hnd

/-- Sample dispatch state for the C9 witness. -/
def sampleDispatch : DispatchState :=
  { pending_chat_ids := ["a"], chat_queue := ["a"] }

/-- C9 witness: two enqueues of a fresh id b into the sample state
produce exactly one queued entry of b, and enqueueing the already
pending id a is a no-op. -/
theorem C9_witness :
    enqueue_chat (enqueue_chat sampleDispatch "b") "b" = enqueue_chat sampleDispatch "b" ∧
    (enqueue_chat sampleDispatch "b").chat_queue.count "b" =
      sampleDispatch.chat_queue.count "b" + 1 ∧
    enqueue_chat sampleDispatch "a" = sampleDispatch := by
  refine ⟨?_, ?_, ?_⟩
  · exact ((C9_enqueue_dedup sampleDispatch "b").2.1 (by decide)).1
  · exact ((C9_enqueue_dedup sampleDispatch "b").2.1 (by decide)).2
  · exact (C9_enqueue_dedup sampleDispatch "a").1 (by decide)

/-! ## C4: tool-iteration exhaustion -/

/-- A response that always requests a tool call, for the C4
counterexample. -/
def alwaysToolResponse : AssistantMessage :=
  { role := "assistant", content := ""
    tool_calls := [{ id := "call1", fn_name := some "search_site", arguments := some "q" }] }

/-- C4 counterexample: when every iteration returns a tool call, the
loop raises AgentClientError with the default category unknown, not
with category tool_iteration_exhausted; no such category exists in the
code. -/
theorem C4_counterexample :
    run_tool_loop 8 (fun _ => alwaysToolResponse) (fun _ => 0) =
      .agentError "unknown" "Reached max tool iterations without a response" ∧
    "unknown" ≠ "tool_iteration_exhausted" := by
  constructor
  · rfl
  · decide

theorem toolLoopGo_exhausts (responses : Nat → AssistantMessage) (lat : Nat → ℚ) :
    ∀ (fuel i : Nat), (∀ k, i ≤ k → k < i + fuel → (responses k).tool_calls ≠ []) →
      toolLoopGo responses lat i fuel =
        .agentError "unknown" "Reached max tool iterations without a response" := by
  intro fuel
  induction fuel with
  | zero => intro i _; rfl
  | succ n ih =>
    intro i h
    have hi : (responses i).tool_calls ≠ [] := h i le_rfl (by omega)
    unfold toolLoopGo
    rw [if_neg (by simpa [List.isEmpty_iff] using hi)]
    exact ih (i + 1) (fun k hk1 hk2 => h k (by omega) (by omega))

/-- C4 (amended): if every iteration of the budget returns tool calls,
run_tool_loop raises AgentClientError with category unknown and the
exhaustion message — a failure, never a partial success; the category
tool_iteration_exhausted of the specification does not occur in the
code. -/
theorem C4_exhaustion_raises_unknown (max_tool_iterations : Nat)
    (responses : Nat → AssistantMessage) (lat : Nat → ℚ)
    (h : ∀ k, k < max_tool_iterations → (responses k).tool_calls ≠ []) :
    run_tool_loop max_tool_iterations responses lat =
      .agentError "unknown" "Reached max tool iterations without a response" :=
  toolLoopGo_exhausts responses lat max_tool_iterations 0
    (fun k _ hk2 => h k (by omega))

/-- C4 witness: the amended statement at budget 2 with a constant
tool-calling response. -/
theorem C4_witness :
    run_tool_loop 2 (fun _ => alwaysToolResponse) (fun _ => 0) =
      .agentError "unknown" "Reached max tool iterations without a response" :=
  C4_exhaustion_raises_unknown 2 (fun _ => alwaysToolResponse) (fun _ => 0)
    (fun k _ => by simp [alwaysToolResponse])

/-! ## C5: chat without streaming returns the parsed body unvalidated -/

/-- C5 counterexample: a 200 response whose parsed content is empty
makes chat(stream=False) return normally, with the empty content, after
one attempt — no non-empty validation happens on the chat path. -/
theorem C5_counterexample :
    chat ⟨3, 3, 10⟩ false (fun _ => ⟨200, ""⟩) (fun _ => ⟨200, []⟩) (fun _ => 0)
        (fun _ => 0) 1 ⟨0, none⟩ =
      (.nonstream (.success ⟨""⟩ 0 1 []), ⟨0, none⟩) ∧
    (ChatCompletionBody.mk "").content = "" := by
  constructor
  · rfl
  · rfl

theorem max_retries_succ (cfg : ClientConfig) :
    ∃ r, max 1 cfg.max_retries = r + 1 :=
  ⟨max 1 cfg.max_retries - 1, by omega⟩

/-- C5 (amended): with the circuit closed, chat with stream=False whose
first attempt returns a non-error HTTP status issues that one request
and returns the parsed JSON body as-is together with the latency; the
content is not validated (an empty content still returns normally —
validation lives only in _post_for_content and generate). -/
theorem C5_chat_nonstream_returns_parsed (cfg : ClientConfig)
    (responses : Nat → HttpResponse) (streamResponses : Nat → StreamHttpResponse)
    (lat : Nat → ℚ) (jitter : Nat → ℚ) (now : ℚ) (s : CircuitState)
    (hopen : circuitOpenAt s now = false) (hok : (responses 0).status < 400) :
    chat cfg false responses streamResponses lat jitter now s =
      (.nonstream (.success ⟨(responses 0).body_content⟩ (lat 0) 1 []), ⟨0, none⟩) := by
  obtain ⟨r, hr⟩ := max_retries_succ cfg
  unfold chat post execute_with_retries
  rw [if_neg (by simp [hopen])]
  rw [hr]
  unfold retryLoop
  have hsend : sendOutcome (responses 0) (lat 0) = .ok ⟨(responses 0).body_content⟩ (lat 0) := by
    unfold sendOutcome
    rw [if_neg (by omega)]
  simp [hsend, attemptStep, hopen]

/-- C5 witness: the amended statement with a concrete 200 response whose
content is the empty string. -/
theorem C5_witness :
    chat ⟨3, 3, 10⟩ false (fun _ => ⟨200, ""⟩) (fun _ => ⟨200, []⟩) (fun _ => 0)
        (fun _ => 0) 1 ⟨0, none⟩ =
      (.nonstream (.success ⟨""⟩ 0 1 []), ⟨0, none⟩) :=
  C5_chat_nonstream_returns_parsed ⟨3, 3, 10⟩ (fun _ => ⟨200, ""⟩) (fun _ => ⟨200, []⟩)
    (fun _ => 0) (fun _ => 0) 1 ⟨0, none⟩ (by decide) (by decide)

/-! ## C2: the circuit-breaker state machine -/

/-- C2: with the circuit open (open_until set and in the future, under a
nonnegative clock) a call fails immediately with category circuit_open,
zero attempts and unchanged state; record_failure increments the
failure counter; at or beyond the threshold it opens the circuit until
now + cooldown; every non-ok attempt outcome records exactly one
failure; and a successful attempt resets the counter and clears
open_until. -/
theorem C2_circuit_state_machine (α : Type) :
    (∀ (cfg : ClientConfig) (outcomes : Nat → AttemptOutcome α) (jitter : Nat → ℚ)
      (now t : ℚ) (s : CircuitState),
      s.circuit_open_until = some t → 0 ≤ now → now < t →
      execute_with_retries cfg outcomes jitter now s = (.failure "circuit_open" 0 [], s)) ∧
    (∀ (cfg : ClientConfig) (now : ℚ) (s : CircuitState),
      (record_failure cfg now s).consecutive_failures = s.consecutive_failures + 1) ∧
    (∀ (cfg : ClientConfig) (now : ℚ) (s : CircuitState),
      s.consecutive_failures + 1 ≥ cfg.circuit_breaker_failures →
      (record_failure cfg now s).circuit_open_until =
        some (now + cfg.circuit_breaker_cooldown)) ∧
    (∀ (cfg : ClientConfig) (now : ℚ) (o : AttemptOutcome α) (j : ℚ) (attempt : Nat)
      (isLast : Bool) (s : CircuitState) (sleeps : List ℚ),
      (∀ v lat, o ≠ .ok v lat) →
      (attemptStep cfg now o j attempt isLast s sleeps).stateOf = record_failure cfg now s) ∧
    (∀ (cfg : ClientConfig) (now : ℚ) (v : α) (lat j : ℚ) (attempt : Nat)
      (isLast : Bool) (s : CircuitState) (sleeps : List ℚ),
      attemptStep cfg now (.ok v lat) j attempt isLast s sleeps =
        .finish (.success v lat (attempt + 1) sleeps) ⟨0, none⟩) := by
  refine ⟨?_, ?_, ?_, ?_, ?_⟩
  · intro cfg outcomes jitter now t s hset hnow hlt
    have hopen : circuitOpenAt s now = true := by
      unfold circuitOpenAt
      rw [hset]
      exact decide_eq_true ⟨by intro h0; rw [h0] at hlt; linarith, hlt⟩
    unfold execute_with_retries
    rw [if_pos hopen]
  · intro cfg now s
    rfl
  · intro cfg now s h
    simp [record_failure, h]
  · intro cfg now o j attempt isLast s sleeps hno
    cases o with
    | ok v lat => exact absurd rfl (hno v lat)
    | agentError cat =>
      simp only [attemptStep]
      split <;> rfl
    | httpStatusError status => rfl
    | timeoutExc =>
      simp only [attemptStep]
      split <;> rfl
    | requestExc =>
      simp only [attemptStep]
      split <;> rfl
  · intro cfg now v lat j attempt isLast s sleeps
    rfl

/-- C2 witness: the conjuncts of the state-machine theorem evaluated at
concrete inputs: a call against an open circuit (open_until 5, now 1)
fast-fails with zero attempts and unchanged state; a third consecutive
failure at threshold 3 opens the circuit until now + cooldown; a failed
attempt records a failure; a successful attempt resets the state. -/
theorem C2_witness :
    execute_with_retries ⟨3, 3, 10⟩
        (fun _ => (.timeoutExc : AttemptOutcome ChatCompletionBody)) (fun _ => 0) 1
        ⟨3, some 5⟩ =
      (.failure "circuit_open" 0 [], ⟨3, some 5⟩) ∧
    (record_failure ⟨3, 3, 10⟩ 1 ⟨2, none⟩).circuit_open_until = some (1 + 10) ∧
    (attemptStep ⟨3, 3, 10⟩ 1 (.httpStatusError 500 : AttemptOutcome ChatCompletionBody)
        0 0 false ⟨0, none⟩ []).stateOf = record_failure ⟨3, 3, 10⟩ 1 ⟨0, none⟩ ∧
    attemptStep ⟨3, 3, 10⟩ 1 (.ok (ChatCompletionBody.mk "hi") 2) 0 1 false ⟨2, some 5⟩ [] =
      .finish (.success (ChatCompletionBody.mk "hi") 2 (1 + 1) []) ⟨0, none⟩ := by
  refine ⟨?_, ?_, ?_, ?_⟩
  · exact (C2_circuit_state_machine ChatCompletionBody).1 ⟨3, 3, 10⟩ _ _ 1 5 ⟨3, some 5⟩ rfl
      (by norm_num) (by norm_num)
  · exact (C2_circuit_state_machine ChatCompletionBody).2.2.1 ⟨3, 3, 10⟩ 1 ⟨2, none⟩
      (by norm_num)
  · exact (C2_circuit_state_machine ChatCompletionBody).2.2.2.1 ⟨3, 3, 10⟩ 1 _ 0 0 false
      ⟨0, none⟩ [] (by intro v lat h; exact absurd h (by simp))
  · exact (C2_circuit_state_machine ChatCompletionBody).2.2.2.2 ⟨3, 3, 10⟩ 1
      (ChatCompletionBody.mk "hi") 2 0 1 false ⟨2, some 5⟩ []

/-! ## C1: HTTP 5xx handling -/

/-- C1 counterexample: with the circuit closed and three attempts
allowed, a non-streaming request answered 503 is categorized
server_error but propagated after a single attempt with no backoff
sleeps (the HTTPStatusError handler always raises), and a streaming
request answered 503 is categorized http_error, not server_error. -/
theorem C1_counterexample :
    post ⟨3, 3, 10⟩ (fun _ => ⟨503, ""⟩) (fun _ => 0) (fun _ => 0) 1 ⟨0, none⟩ =
      (.failure "server_error" 1 [], ⟨1, none⟩) ∧
    streamChat ⟨3, 3, 10⟩ (fun _ => ⟨503, []⟩) (fun _ => 0) (fun _ => 0) 1 ⟨0, none⟩ =
      (.failure "http_error" 1 [], ⟨1, none⟩) ∧
    (1 : Nat) < max 1 (3 : Nat) ∧ "http_error" ≠ "server_error" := by
  refine ⟨by decide, by decide, by decide, by decide⟩

/-- C1 (amended): with the circuit closed, a first attempt answered with
a status of at least 500 is never retried: the non-streaming path
records one failure and immediately raises AgentClientError with
category server_error, and the streaming path records one failure and
immediately raises with category http_error (stream_once recategorizes
every HTTP status error before the retry loop can classify it). -/
theorem C1_5xx_propagates_immediately (cfg : ClientConfig)
    (responses : Nat → HttpResponse) (sresponses : Nat → StreamHttpResponse)
    (lat : Nat → ℚ) (jitter : Nat → ℚ) (now : ℚ) (s : CircuitState)
    (h5 : 500 ≤ (responses 0).status) (hs5 : 500 ≤ (sresponses 0).status)
    (hopen : circuitOpenAt s now = false) :
    post cfg responses lat jitter now s =
      (.failure "server_error" 1 [], record_failure cfg now s) ∧
    streamChat cfg sresponses lat jitter now s =
      (.failure "http_error" 1 [], record_failure cfg now s) := by
  obtain ⟨r, hr⟩ := max_retries_succ cfg
  constructor
  · unfold post execute_with_retries
    rw [if_neg (by simp [hopen]), hr]
    unfold retryLoop
    have hsend : sendOutcome (responses 0) (lat 0) = .httpStatusError (responses 0).status := by
      unfold sendOutcome
      rw [if_pos (by omega)]
    have hcat : httpCategory (responses 0).status = "server_error" := by
      unfold httpCategory
      rw [if_neg (by omega), if_pos (by omega)]
    simp [hsend, attemptStep, hcat]
  · unfold streamChat execute_with_retries
    rw [if_neg (by simp [hopen]), hr]
    unfold retryLoop
    have hstream : stream_once_outcome (sresponses 0) (lat 0) = .agentError "http_error" := by
      unfold stream_once_outcome
      rw [if_pos (by omega)]
    simp only [hstream, attemptStep]
    rw [if_pos (Or.inl (by decide))]

/-- C1 witness: the amended statement at concrete 503 responses with the
circuit closed. -/
theorem C1_witness :
    post ⟨3, 3, 10⟩ (fun _ => ⟨503, ""⟩) (fun _ => 0) (fun _ => 0) 1 ⟨0, none⟩ =
      (.failure "server_error" 1 [], record_failure ⟨3, 3, 10⟩ 1 ⟨0, none⟩) ∧
    streamChat ⟨3, 3, 10⟩ (fun _ => ⟨503, []⟩) (fun _ => 0) (fun _ => 0) 1 ⟨0, none⟩ =
      (.failure "http_error" 1 [], record_failure ⟨3, 3, 10⟩ 1 ⟨0, none⟩) :=
  C1_5xx_propagates_immediately ⟨3, 3, 10⟩ (fun _ => ⟨503, ""⟩) (fun _ => ⟨503, []⟩)
    (fun _ => 0) (fun _ => 0) 1 ⟨0, none⟩ (by decide) (by decide) (by decide)

/-! ## C6: backoff delays -/

theorem attemptStep_finish_sleeps {α : Type} {cfg : ClientConfig} {now : ℚ}
    {o : AttemptOutcome α} {j : ℚ} {attempt : Nat} {isLast : Bool} {s : CircuitState}
    {sleeps : List ℚ} {res : ExecResult α} {s1 : CircuitState}
    (h : attemptStep cfg now o j attempt isLast s sleeps = .finish res s1) :
    res.sleepsOf = sleeps := by
  cases o with
  | ok v lat =>
    simp only [attemptStep] at h
    cases h
    rfl
  | agentError cat =>
    simp only [attemptStep] at h
    split at h
    · cases h; rfl
    · cases h
  | httpStatusError status =>
    simp only [attemptStep] at h
    cases h
    rfl
  | timeoutExc =>
    simp only [attemptStep] at h
    split at h
    · cases h; rfl
    · cases h
  | requestExc =>
    simp only [attemptStep] at h
    split at h
    · cases h; rfl
    · cases h

theorem attemptStep_sleepRetry_delay {α : Type} {cfg : ClientConfig} {now : ℚ}
    {o : AttemptOutcome α} {j : ℚ} {attempt : Nat} {isLast : Bool} {s : CircuitState}
    {sleeps : List ℚ} {d : ℚ} {s1 : CircuitState}
    (h : attemptStep cfg now o j attempt isLast s sleeps = .sleepRetry d s1) :
    d = backoffDelay attempt j := by
  cases o with
  | ok v lat =>
    simp only [attemptStep] at h
    cases h
  | agentError cat =>
    simp only [attemptStep] at h
    split at h
    · cases h
    · cases h; rfl
  | httpStatusError status =>
    simp only [attemptStep] at h
    cases h
  | timeoutExc =>
    simp only [attemptStep] at h
    split at h
    · cases h
    · cases h; rfl
  | requestExc =>
    simp only [attemptStep] at h
    split at h
    · cases h
    · cases h; rfl

theorem retryLoop_sleeps (α : Type) (cfg : ClientConfig) (outcomes : Nat → AttemptOutcome α)
    (jitter : Nat → ℚ) (now : ℚ) :
    ∀ (remaining attempt : Nat) (s : CircuitState) (sleeps : List ℚ),
      ∃ m, (retryLoop cfg outcomes jitter now attempt remaining s sleeps).1.sleepsOf =
        sleeps ++ (List.range' attempt m).map (fun k => backoffDelay k (jitter k)) := by
  intro remaining
  induction remaining with
  | zero =>
    intro attempt s sleeps
    exact ⟨0, by simp [retryLoop, ExecResult.sleepsOf]⟩
  | succ n ih =>
    intro attempt s sleeps
    unfold retryLoop
    cases hstep : attemptStep cfg now (outcomes attempt) (jitter attempt) attempt
        (n == 0) s sleeps with
    | finish res s1 =>
      refine ⟨0, ?_⟩
      show res.sleepsOf = _
      simp [attemptStep_finish_sleeps hstep]
    | sleepRetry dl s1 =>
      obtain ⟨m, hm⟩ := ih (attempt + 1) s1 (sleeps ++ [dl])
      refine ⟨m + 1, ?_⟩
      show (retryLoop cfg outcomes jitter now (attempt + 1) n s1 (sleeps ++ [dl])).1.sleepsOf = _
      rw [hm, attemptStep_sleepRetry_delay hstep, List.range'_succ]
      simp [List.append_assoc]

/-- C6 (amended): with the circuit closed, the sleeps of one retry-loop
execution are exactly min(2^k, 8) + jitter(k) for the consecutive
zero-based failed-attempt indices k = 0, 1, ..., m-1, where jitter
ranges over [0, 1); and consecutive delays strictly increase while the
exponential base is below the cap, that is up to the fourth delay
(with the default max_retries = 3 every execution sleeps at most twice,
so all its delays strictly increase).  Beyond the cap two consecutive
delays may decrease — see the counterexample. -/
theorem C6_backoff_formula (α : Type) (cfg : ClientConfig)
    (outcomes : Nat → AttemptOutcome α) (jitter : Nat → ℚ) (now : ℚ) (s : CircuitState)
    (hopen : circuitOpenAt s now = false) (hj : ∀ k, 0 ≤ jitter k ∧ jitter k < 1) :
    ∃ m, (execute_with_retries cfg outcomes jitter now s).1.sleepsOf =
        (List.range m).map (fun k => backoffDelay k (jitter k)) ∧
      ∀ i, i + 1 ≤ 3 →
        backoffDelay i (jitter i) < backoffDelay (i + 1) (jitter (i + 1)) := by
  obtain ⟨m, hm⟩ := retryLoop_sleeps α cfg outcomes jitter now (max 1 cfg.max_retries) 0 s []
  refine ⟨m, ?_, ?_⟩
  · unfold execute_with_retries
    rw [if_neg (by simp [hopen])]
    rw [hm, List.range_eq_range']
    simp
  · intro i hi
    have hle : i ≤ 2 := by omega
    interval_cases i <;>
      (simp only [backoffDelay]
       norm_num
       linarith [(hj 0).1, (hj 0).2, (hj 1).1, (hj 1).2, (hj 2).1, (hj 2).2,
         (hj 3).1, (hj 3).2])

/-- Attempt outcomes for the C6 counterexample: five timeouts, then a
success on the sixth attempt. -/
def cexOutcomes : Nat → AttemptOutcome ChatCompletionBody :=
  fun k => if k == 5 then .ok ⟨"done"⟩ 0 else .timeoutExc

/-- Jitter draws for the C6 counterexample: 9/10 on the fourth failed
attempt, 0 elsewhere — all within [0, 1). -/
def cexJitter : Nat → ℚ := fun k => if k == 3 then 9 / 10 else 0

/-- C6 counterexample: with max_retries = 6, five retryable failures
before a success produce the backoff delays 1, 2, 4, 8 + 9/10, 8 — each
matching min(2^attempt, 8) + jitter, but the fifth delay is smaller
than the fourth, so the delays within this one call are not strictly
increasing. -/
theorem C6_counterexample :
    execute_with_retries ⟨6, 10, 10⟩ cexOutcomes cexJitter 1 ⟨0, none⟩ =
      (.success ⟨"done"⟩ 0 6 [1, 2, 4, 8 + 9 / 10, 8], ⟨0, none⟩) ∧
    ¬ ((8 + 9 / 10 : ℚ) < 8) := by
  constructor
  · have hloop : execute_with_retries ⟨6, 10, 10⟩ cexOutcomes cexJitter 1 ⟨0, none⟩ =
        (.success ⟨"done"⟩ 0 6
          [backoffDelay 0 (cexJitter 0), backoffDelay 1 (cexJitter 1),
            backoffDelay 2 (cexJitter 2), backoffDelay 3 (cexJitter 3),
            backoffDelay 4 (cexJitter 4)], ⟨0, none⟩) := rfl
    rw [hloop]
    norm_num [backoffDelay, cexJitter]
  · norm_num

/-- C6 witness: the amended statement applied to the counterexample
configuration; the witness exhibits the concrete delay list. -/
theorem C6_witness :
    ∃ m, (execute_with_retries ⟨6, 10, 10⟩ cexOutcomes cexJitter 1 ⟨0, none⟩).1.sleepsOf =
        (List.range m).map (fun k => backoffDelay k (cexJitter k)) ∧
      ∀ i, i + 1 ≤ 3 →
        backoffDelay i (cexJitter i) < backoffDelay (i + 1) (cexJitter (i + 1)) :=
  C6_backoff_formula ChatCompletionBody ⟨6, 10, 10⟩ cexOutcomes cexJitter 1 ⟨0, none⟩
    (by decide)
    (by
      intro k
      constructor
      · unfold cexJitter
        split <;> norm_num
      · unfold cexJitter
        split <;> norm_num)

/-! ## C3: streaming tool-call reassembly -/

/-- Left-fold dedup keeping first occurrences: the order in which
mergeDelta first sees each id. -/
def dedupKeepFirst (xs : List String) : List String :=
  xs.foldl (fun acc x => if x ∈ acc then acc else acc ++ [x]) []

/-- Concatenation, in arrival order, of the argument fragments of the
deltas carrying the given id (an absent fragment contributes the empty
string). -/
def argsConcat (id : String) (ds : List ToolCallDelta) : String :=
  (ds.filter (fun d => d.id == id)).foldl (fun s d => s ++ d.arguments.getD "") ""

/-- The frames strictly before the first done marker: the frames the
stream loop consumes. -/
def framesBeforeDone : List SSEFrame → List SSEFrame
  | [] => []
  | .done :: _ => []
  | f :: rest => f :: framesBeforeDone rest

/-- The tool-call deltas of one frame. -/
def frameDeltas : SSEFrame → List ToolCallDelta
  | .delta _ tcs => tcs
  | _ => []

/-- All tool-call deltas consumed by the stream loop, in arrival
order. -/
def toolDeltasOf (frames : List SSEFrame) : List ToolCallDelta :=
  ((framesBeforeDone frames).map frameDeltas).flatten

theorem dedupKeepFirst_append_single (xs : List String) (x : String) :
    dedupKeepFirst (xs ++ [x]) =
      if x ∈ dedupKeepFirst xs then dedupKeepFirst xs else dedupKeepFirst xs ++ [x] := by
  unfold dedupKeepFirst
  rw [List.foldl_append]
  rfl

theorem mem_foldl_dedup (xs : List String) :
    ∀ (acc : List String) (a : String),
      (a ∈ xs.foldl (fun acc x => if x ∈ acc then acc else acc ++ [x]) acc) ↔
        a ∈ acc ∨ a ∈ xs := by
  induction xs with
  | nil =>
    intro acc a
    simp
  | cons x rest ih =>
    intro acc a
    rw [List.foldl_cons, ih]
    by_cases hx : x ∈ acc
    · simp only [if_pos hx, List.mem_cons]
      constructor
      · tauto
      · rintro (h | h | h)
        · exact Or.inl h
        · exact Or.inl (h ▸ hx)
        · exact Or.inr h
    · simp only [if_neg hx, List.mem_append, List.mem_singleton, List.mem_cons]
      tauto

theorem mem_dedupKeepFirst (xs : List String) (a : String) :
    a ∈ dedupKeepFirst xs ↔ a ∈ xs := by
  unfold dedupKeepFirst
  rw [mem_foldl_dedup]
  simp

theorem nodup_dedupKeepFirst (xs : List String) : (dedupKeepFirst xs).Nodup := by
  induction xs using List.reverseRecOn with
  | nil => simp [dedupKeepFirst]
  | append_singleton ds d ih =>
    rw [dedupKeepFirst_append_single]
    split
    · exact ih
    · rename_i hnot
      simp [List.nodup_append, ih, hnot]

theorem argsConcat_append_single (id : String) (ds : List ToolCallDelta)
    (d : ToolCallDelta) :
    argsConcat id (ds ++ [d]) =
      if d.id = id then argsConcat id ds ++ d.arguments.getD "" else argsConcat id ds := by
  unfold argsConcat
  rw [List.filter_append]
  by_cases h : d.id = id
  · rw [if_pos h]
    have hf : List.filter (fun d2 => d2.id == id) [d] = [d] := by simp [h]
    rw [hf, List.foldl_append]
    rfl
  · rw [if_neg h]
    have hf : List.filter (fun d2 => d2.id == id) [d] = [] := by simp [h]
    rw [hf, List.append_nil]

theorem argsConcat_of_not_mem (id : String) (ds : List ToolCallDelta)
    (h : id ∉ ds.map ToolCallDelta.id) : argsConcat id ds = "" := by
  unfold argsConcat
  have hf : ds.filter (fun d2 => d2.id == id) = [] := by
    rw [List.filter_eq_nil_iff]
    intro d hd
    simp only [beq_iff_eq]
    intro heq
    exact h (heq ▸ List.mem_map_of_mem ToolCallDelta.id hd)
  rw [hf]
  rfl

theorem applyArgFragment_id (c : PendingToolCall) (d : ToolCallDelta) :
    (applyArgFragment c d).id = c.id := by
  unfold applyArgFragment
  cases d.arguments <;> rfl

theorem updateFirstMatch_eq_map (d : ToolCallDelta) (l : List PendingToolCall)
    (hl : (l.map PendingToolCall.id).Nodup) :
    updateFirstMatch d l =
      l.map (fun c => if c.id = d.id then applyArgFragment c d else c) := by
  induction l with
  | nil => rfl
  | cons c rest ih =>
    simp only [List.map_cons, List.nodup_cons] at hl
    unfold updateFirstMatch
    split
    · rename_i hc
      have hrest : rest.map (fun c2 => if c2.id = d.id then applyArgFragment c2 d else c2) =
          rest := by
        have hall : ∀ c2 ∈ rest,
            (if c2.id = d.id then applyArgFragment c2 d else c2) = c2 := by
          intro c2 hc2
          rw [if_neg]
          intro heq
          have hmem2 : c2.id ∈ rest.map PendingToolCall.id :=
            List.mem_map_of_mem PendingToolCall.id hc2
          rw [heq, ← hc] at hmem2
          exact hl.1 hmem2
        rw [List.map_congr_left hall, List.map_id']
      rw [List.map_cons, if_pos hc, hrest]
    · rename_i hc
      rw [List.map_cons, if_neg hc, ih hl.2]

theorem mergeToolCallDeltas_append (ds : List ToolCallDelta) (d : ToolCallDelta) :
    mergeToolCallDeltas (ds ++ [d]) = mergeDelta (mergeToolCallDeltas ds) d := by
  unfold mergeToolCallDeltas
  rw [List.foldl_append]
  rfl

theorem mergeToolCallDeltas_spec (ds : List ToolCallDelta) :
    (mergeToolCallDeltas ds).map PendingToolCall.id =
        dedupKeepFirst (ds.map ToolCallDelta.id) ∧
    ∀ c ∈ mergeToolCallDeltas ds, c.arguments.getD "" = argsConcat c.id ds := by
  induction ds using List.reverseRecOn with
  | nil => exact ⟨rfl, fun c hc => absurd hc (List.not_mem_nil c)⟩
  | append_singleton ds d ih =>
    obtain ⟨ihids, ihargs⟩ := ih
    rw [mergeToolCallDeltas_append]
    have hnd : ((mergeToolCallDeltas ds).map PendingToolCall.id).Nodup := by
      rw [ihids]
      exact nodup_dedupKeepFirst _
    by_cases hmem : d.id ∈ (mergeToolCallDeltas ds).map PendingToolCall.id
    · have hany : (mergeToolCallDeltas ds).any (fun c => c.id == d.id) = true := by
        rw [List.any_eq_true]
        obtain ⟨c, hc, hcid⟩ := List.mem_map.1 hmem
        exact ⟨c, hc, by simp [hcid]⟩
      unfold mergeDelta
      rw [if_pos hany, updateFirstMatch_eq_map d _ hnd]
      constructor
      · have hmapid :
            ((mergeToolCallDeltas ds).map
              (fun c => if c.id = d.id then applyArgFragment c d else c)).map
                PendingToolCall.id =
              (mergeToolCallDeltas ds).map PendingToolCall.id := by
          rw [List.map_map]
          apply List.map_congr_left
          intro c _
          by_cases h : c.id = d.id
          · simp [h, applyArgFragment_id]
          · simp [h]
        rw [hmapid, ihids, List.map_append]
        simp only [List.map_cons, List.map_nil]
        rw [dedupKeepFirst_append_single, if_pos]
        show d.id ∈ dedupKeepFirst (ds.map ToolCallDelta.id)
        rw [← ihids]
        exact hmem
      · intro c' hc'
        obtain ⟨c, hc, hceq⟩ := List.mem_map.1 hc'
        by_cases h : c.id = d.id
        · rw [if_pos h] at hceq
          rw [← hceq, applyArgFragment_id, argsConcat_append_single, if_pos h.symm,
            ← ihargs c hc]
          cases harg : d.arguments with
          | some frag => simp [applyArgFragment, harg]
          | none => simp [applyArgFragment, harg, String.append_empty]
        · rw [if_neg h] at hceq
          rw [← hceq, argsConcat_append_single, if_neg (fun heq => h heq.symm)]
          exact ihargs c hc
    · have hany : (mergeToolCallDeltas ds).any (fun c => c.id == d.id) = false := by
        rw [List.any_eq_false]
        intro c hc
        simp only [beq_iff_eq]
        intro heq
        exact hmem (heq ▸ List.mem_map_of_mem PendingToolCall.id hc)
      unfold mergeDelta
      rw [hany]
      simp only [Bool.false_eq_true, if_false]
      constructor
      · rw [List.map_append, ihids, List.map_append]
        simp only [List.map_cons, List.map_nil]
        rw [dedupKeepFirst_append_single, if_neg]
        show d.id ∉ dedupKeepFirst (ds.map ToolCallDelta.id)
        rw [← ihids]
        exact hmem
      · intro c' hc'
        rcases List.mem_append.1 hc' with hcR | hcnew
        · have hne : c'.id ≠ d.id := by
            intro heq
            exact hmem (heq ▸ List.mem_map_of_mem PendingToolCall.id hcR)
          rw [argsConcat_append_single, if_neg (fun heq => hne heq.symm)]
          exact ihargs c' hcR
        · have hc'eq : c' = ⟨d.id, d.fn_name, d.arguments⟩ := by simpa using hcnew
          subst hc'eq
          rw [argsConcat_append_single, if_pos rfl, argsConcat_of_not_mem]
          · exact (String.empty_append _).symm
          · intro hmem2
            apply hmem
            rw [ihids, mem_dedupKeepFirst]
            exact hmem2

theorem processFrames_tool_calls (frames : List SSEFrame) :
    ∀ acc : StreamAccum,
      (processFrames acc frames).tool_calls =
        (toolDeltasOf frames).foldl mergeDelta acc.tool_calls := by
  induction frames with
  | nil =>
    intro acc
    rfl
  | cons f rest ih =>
    intro acc
    cases f with
    | done => rfl
    | skipped =>
      rw [show processFrames acc (.skipped :: rest) = processFrames acc rest from rfl, ih]
      rfl
    | delta content tcs =>
      rw [show processFrames acc (.delta content tcs :: rest) =
        processFrames (processFrame acc content tcs) rest from rfl, ih]
      have htc : (processFrame acc content tcs).tool_calls =
          tcs.foldl mergeDelta acc.tool_calls := by
        unfold processFrame
        by_cases h : tcs.isEmpty
        · have hnil : tcs = [] := List.isEmpty_iff.1 h

          subst hnil
          simp
        · simp [h]
      rw [htc, show toolDeltasOf (.delta content tcs :: rest) = tcs ++ toolDeltasOf rest
        from rfl, List.foldl_append]

/-- C3: during streaming decode, a delta with an unseen call id creates
a new pending tool call and a delta with a known id concatenates its
fragment onto the existing buffer, so the assembled assistant message
contains exactly one tool call per distinct id (the id list is the
first-occurrence dedup of the delta ids, without duplicates) and each
call's arguments buffer equals the concatenation of the fragments with
that id in arrival order. -/
theorem C3_stream_reassembles_tool_calls (frames : List SSEFrame) :
    ((assembleStreamMessage frames).tool_calls.map PendingToolCall.id).Nodup ∧
    (assembleStreamMessage frames).tool_calls.map PendingToolCall.id =
      dedupKeepFirst ((toolDeltasOf frames).map ToolCallDelta.id) ∧
    ∀ c ∈ (assembleStreamMessage frames).tool_calls,
      c.arguments.getD "" = argsConcat c.id (toolDeltasOf frames) := by
  have hb : (assembleStreamMessage frames).tool_calls =
      mergeToolCallDeltas (toolDeltasOf frames) := by
    unfold assembleStreamMessage mergeToolCallDeltas
    exact processFrames_tool_calls frames ⟨[], []⟩
  obtain ⟨h1, h2⟩ := mergeToolCallDeltas_spec (toolDeltasOf frames)
  rw [hb, h1]
  exact ⟨nodup_dedupKeepFirst _, rfl, h2⟩

/-- Concrete SSE stream for the C3 witness: one tool call id split
across three argument fragments, one skipped frame, and a frame after
the done marker that must be ignored. -/
def witnessFrames : List SSEFrame :=
  [.delta none [⟨"call1", some "search_site", some "ab"⟩],
   .delta (some "Hello") [⟨"call1", none, some "cd"⟩],
   .skipped,
   .delta none [⟨"call1", none, some "ef"⟩],
   .done,
   .delta none [⟨"call2", none, some "zz"⟩]]

/-- C3 witness: on the concrete stream, the single reassembled call
carries the concatenation of its three fragments and the id list is the
dedup of the consumed delta ids (the post-done frame is ignored). -/
theorem C3_witness :
    (PendingToolCall.mk "call1" (some "search_site") (some "abcdef")).arguments.getD "" =
      argsConcat "call1" (toolDeltasOf witnessFrames) ∧
    (assembleStreamMessage witnessFrames).tool_calls.map PendingToolCall.id =
      dedupKeepFirst ((toolDeltasOf witnessFrames).map ToolCallDelta.id) := by
  constructor
  · have hmem : (PendingToolCall.mk "call1" (some "search_site") (some "abcdef")) ∈
        (assembleStreamMessage witnessFrames).tool_calls := by decide
    have := (C3_stream_reassembles_tool_calls witnessFrames).2.2 _ hmem
    simpa using this
  · exact (C3_stream_reassembles_tool_calls witnessFrames).2.1

end Terrarium
